import Mathlib

/-!
Shallow embedding of the orchestration module `whois/__init__.py` of the
python-whois package: the Python string primitives it uses, the suffix
classification tables (`Map2Underscore`, `PythonKeyWordMap`, `Utf8Map`),
the classifier `filterTldToSupportedPattern`, the internationalization
converter, and the `query` entry point with its progressive-retry loop.
External collaborators (the `do_query` lookup executor, the `do_parse`
parser, the `TLD_RE` registry from `_2_parse`, and the idna codec) are
not part of the file under `src/whois/__init__.py`; they appear here as
parameters whose shape is modelled from the spec.
-/

/-- The characters removed by Python `str.strip()` (ASCII whitespace). -/
def pyIsSpace (c : Char) : Bool :=
  c == ' ' || c == '\t' || c == '\n' || c == '\r' || c == '\x0b' || c == '\x0c'

/-- Python `s.lower()`, restricted to ASCII case folding (domain names). -/
def pyLower (s : String) : String := ⟨s.data.map Char.toLower⟩

/-- Python `s.strip()`: remove leading and trailing whitespace. -/
def pyStrip (s : String) : String :=
  ⟨((s.data.dropWhile pyIsSpace).reverse.dropWhile pyIsSpace).reverse⟩

/-- Python `s.rstrip(".")`: remove every trailing `'.'` character. -/
def pyRstripDots (s : String) : String :=
  ⟨(s.data.reverse.dropWhile (· == '.')).reverse⟩

/-- Python `str.split(sep)` for a single-character separator, on the
character list: `"".split(".") = [""]`, `"a.".split(".") = ["a", ""]`. -/
def splitOnChar (sep : Char) : List Char → List (List Char)
  | [] => [[]]
  | c :: rest =>
    if c = sep then [] :: splitOnChar sep rest
    else
      match splitOnChar sep rest with
      | [] => [[c]]
      | h :: t => (c :: h) :: t

/-- Python `s.split(sep)` for a single-character separator. -/
def pySplit (sep : Char) (s : String) : List String :=
  (splitOnChar sep s.data).map String.mk

/-- Python `s.endswith(suf)`. -/
def strEndsWith (s suf : String) : Bool := decide (suf.data <:+ s.data)

/-- The `Map2Underscore` table of `whois/__init__.py`, in source order:
literal compound suffixes mapped to canonical underscore identifiers. -/
def Map2Underscore : List (String × String) :=
  [ (".ac.uk", "ac_uk"),
    (".co.il", "co_il"),
    (".ca.ug", "ca_ug"),
    (".co.ug", "co_ug"),
    (".co.th", "co_th"),
    (".in.th", "in_th"),
    (".ac.jp", "ac_jp"),
    (".ad.jp", "ad_jp"),
    (".co.jp", "co_jp"),
    (".ed.jp", "ed_jp"),
    (".go.jp", "go_jp"),
    (".gr.jp", "gr_jp"),
    (".lg.jp", "lg_jp"),
    (".ne.jp", "ne_jp"),
    (".or.jp", "or_jp"),
    (".geo.jp", "geo_jp"),
    (".com.au", "com_au"),
    (".com.sg", "com_sg"),
    (".com.tr", "com_tr"),
    (".edu.tr", "edu_tr"),
    (".org.tr", "org_tr"),
    (".edu.ua", "edu_ua"),
    (".lviv.ua", "lviv_ua"),
    (".hopto.org", "hopto_org"),
    (".duckdns.org", "duckdns_org"),
    (".no-ip.com", "noip_com"),
    (".no-ip.org", "noip_org"),
    (".ac.th", "ac_th"),
    (".co.ke", "co_ke"),
    (".com.bo", "com_bo"),
    (".com.ly", "com_ly"),
    (".com.tw", "com_tw"),
    (".com.np", "com_np"),
    (".go.th", "go_th"),
    (".com.ec", "com_ec"),
    (".gob.ec", "gob_ec"),
    (".co.zw", "com_zw"),
    (".org.zw", "org_zw"),
    (".com.py", "com_py") ]

/-- The `PythonKeyWordMap` table of `whois/__init__.py`, in source order.
Note the `"global"` entry carries no leading dot. -/
def PythonKeyWordMap : List (String × String) :=
  [ ("global", "global_"),
    (".id", "id_"),
    (".in", "in_"),
    (".is", "is_"),
    (".as", "as_") ]

/-- The `Utf8Map` table of `whois/__init__.py`. -/
def Utf8Map : List (String × String) :=
  [ (".xn--p1ai", "ru_rf") ]

/-- The first-match scan Python performs when iterating a table and
testing `domain.endswith(key)`, returning the mapped value. -/
def lookupSuffix (domain : String) : List (String × String) → Option String
  | [] => none
  | p :: rest => if strEndsWith domain p.1 then some p.2 else lookupSuffix domain rest

/-- The Python runtime error raised by indexing an empty list. -/
inductive PyErr where
  | indexError
deriving DecidableEq

/-- `filterTldToSupportedPattern(domain, d)` from `whois/__init__.py`:
priority scan of `Map2Underscore` (only when `len(d) > 2`), then
`PythonKeyWordMap`, then `Utf8Map`, then the `.name` special case (which
rewrites `d[0]` to `"domain=" + d[0]` and returns `d[-1]`), then the
fallback `d[-1]`.  `d[-1]` (and the `.name` rewrite of `d[0]`) raise
`IndexError` on an empty list, modelled by the `Except` error. -/
def filterTldToSupportedPattern (domain : String) (d : List String) :
    Except PyErr (String × List String) :=
  match (if 2 < d.length then lookupSuffix domain Map2Underscore else none) with
  | some t => .ok (t, d)
  | none =>
    match lookupSuffix domain PythonKeyWordMap with
    | some t => .ok (t, d)
    | none =>
      match lookupSuffix domain Utf8Map with
      | some t => .ok (t, d)
      | none =>
        if strEndsWith domain ".name" then
          match d with
          | [] => .error .indexError
          | d0 :: rest =>
            .ok ((("domain=" ++ d0) :: rest).getLast (List.cons_ne_nil _ _),
                 ("domain=" ++ d0) :: rest)
        else
          match d.getLast? with
          | some t => .ok (t, d)
          | none => .error .indexError

example : filterTldToSupportedPattern "a.b.co.il" ["a", "b", "co", "il"] =
    .ok ("co_il", ["a", "b", "co", "il"]) := by rfl
example : filterTldToSupportedPattern "a.b.co.uk" ["a", "b", "co", "uk"] =
    .ok ("uk", ["a", "b", "co", "uk"]) := by rfl
example : filterTldToSupportedPattern "example.myglobal" ["example", "myglobal"] =
    .ok ("global_", ["example", "myglobal"]) := by rfl
example : pySplit '.' "a.com.." = ["a", "com", "", ""] := by decide
example : pySplit '_' "id_" = ["id", ""] := by decide
example : pyRstripDots "a.com.." = "a.com" := by decide

/-- Modelled from the spec: one entry of the `TLD_RE` registry from
`_2_parse` (not under `src/`): optional `"_server"` hint, optional
`"_slowdown"` hint, and the `"_privateRegistry"` flag. -/
structure TldInfo where
  privateRegistry : Bool
  server : Option String
  slowdown : Option Int
deriving DecidableEq

/-- Modelled from the spec: the record produced by the `do_parse`
collaborator; the field stands for `pd["domain_name"][0]`, the first
candidate name string, whose truthiness signals success. -/
structure ParsedRecord where
  domain_name0 : String
deriving DecidableEq

/-- One invocation of the `do_query` lookup executor, recording the
arguments this core controls: the label sequence `dl`, the effective
`server`, and the effective `slow_down`. -/
structure LookupCall where
  dl : List String
  server : Option String
  slow_down : Int
deriving DecidableEq

/-- The observable result of a `query` call: a returned record, a
returned `None`, or one of the raised conditions. -/
inductive QueryOutcome where
  | assertError
  | noResult
  | indexError
  | unknownTld
  | privateRegistry
  | unicodeError
  | domainRecord (pd : ParsedRecord)
deriving DecidableEq

/-- Modelled from the spec: a dynamically-typed Python argument where a
`str` is expected; the non-string constructors stand for arbitrary
non-`str` values. -/
inductive PyValue where
  | pyStr (s : String)
  | pyInt (n : Int)
  | pyNone
deriving DecidableEq

/-- The module-level default `SLOW_DOWN = 0` of `whois/__init__.py`. -/
def SLOW_DOWN : Int := 0

/-- The success test `pd and pd["domain_name"][0]` of the retry loop. -/
def pdSuccess : Option ParsedRecord → Bool
  | some pd => pd.domain_name0 != ""
  | none => false

/-- `domain.lower().strip().rstrip(".")` from `query`. -/
def codeNormalizeStr (s : String) : String := pyRstripDots (pyStrip (pyLower s))

/-- The `www` drop from `query`: `if d[0] == "www": d = d[1:]`. -/
def wwwDrop : List String → List String
  | [] => []
  | w :: rest => if w = "www" then rest else w :: rest

/-- The full normalized label sequence `query` computes from its string
argument before the length check. -/
def codeNormalize (s : String) : List String :=
  wwwDrop (pySplit '.' (codeNormalizeStr s))

/-- `internationalizedDomainNameToPunyCode(d)` from `whois/__init__.py`:
`[k.encode("idna").decode() or k for k in d]`.  The idna codec is a
collaborator parameter `encodeIdna`; an encode error raised inside the
comprehension propagates (there is no handler in the source), and a
falsy (empty) encode result falls back to the original label `k`. -/
def internationalizedDomainNameToPunyCode
    (encodeIdna : String → Except Unit String) :
    List String → Except Unit (List String)
  | [] => .ok []
  | k :: rest =>
    match (encodeIdna k).map (fun e => if e != "" then e else k) with
    | .error er => .error er
    | .ok e1 =>
      match internationalizedDomainNameToPunyCode encodeIdna rest with
      | .error er => .error er
      | .ok rest1 => .ok (e1 :: rest1)

/-- The explicit-server hint of `query`:
`if server is None and thisTldServer: server = thisTldServer`
(`thisTldServer` is truthy when present and nonempty). -/
def pickServer (server0 : Option String) (info : TldInfo) : Option String :=
  match server0, info.server with
  | some c, _ => some c
  | none, some sv => if sv != "" then some sv else none
  | none, none => none

/-- The slowdown hint of `query`:
`if slow_down == 0 and slowDown and slowDown > 0: slow_down = slowDown`. -/
def pickSlowDown (slow_down1 : Int) (info : TldInfo) : Int :=
  match info.slowdown with
  | some v => if slow_down1 = 0 ∧ v ≠ 0 ∧ 0 < v then v else slow_down1
  | none => slow_down1

/-- The `while 1:` retry loop of `query`: call `do_query`/`do_parse` on
the current label sequence `d` (the composite is the oracle `attempt`),
return the record on success, otherwise drop the left-most label and
retry while `len(d) > len(tldLevel) + 1`.  The trace of executor
invocations is returned alongside the result. -/
def queryLoop (attempt : List String → Option ParsedRecord)
    (server : Option String) (slow_down : Int) (tldLevel : List String) :
    List String → Option ParsedRecord × List LookupCall
  | [] =>
    if pdSuccess (attempt []) then (attempt [], [⟨[], server, slow_down⟩])
    else (none, [⟨[], server, slow_down⟩])
  | x :: rest =>
    if pdSuccess (attempt (x :: rest)) then
      (attempt (x :: rest), [⟨x :: rest, server, slow_down⟩])
    else if tldLevel.length + 1 < (x :: rest).length then
      let r := queryLoop attempt server slow_down tldLevel rest
      (r.1, ⟨x :: rest, server, slow_down⟩ :: r.2)
    else (none, [⟨x :: rest, server, slow_down⟩])

/-- `query` from `whois/__init__.py`.  Collaborators are parameters:
`TLDRE` is the `TLD_RE` registry (an association list standing for the
Python dict), `attempt` is the composite `do_query` + `do_parse` for the
parameters fixed in this call, `encodeIdna` the idna codec.  Arguments
not observable at this layer (`force`, `cache_file`,
`ignore_returncode`, `verbose`, `with_cleanup_results`) are omitted.
The returned trace lists the `do_query` invocations in order. -/
def query (TLDRE : List (String × TldInfo))
    (attempt : List String → Option ParsedRecord)
    (encodeIdna : String → Except Unit String)
    (domainArg : PyValue) (slow_down0 : Int) (server0 : Option String)
    (internationalized : Bool) : QueryOutcome × List LookupCall :=
  match domainArg with
  | .pyInt _ => (.assertError, [])
  | .pyNone => (.assertError, [])
  | .pyStr s =>
    let slow_down1 : Int := if slow_down0 != 0 then slow_down0 else SLOW_DOWN
    let domain := codeNormalizeStr s
    let d1 := wwwDrop (pySplit '.' domain)
    if d1.length = 1 then (.noResult, [])
    else
      match filterTldToSupportedPattern domain d1 with
      | .error _ => (.indexError, [])
      | .ok (tld, d2) =>
        match TLDRE.lookup tld with
        | none => (.unknownTld, [])
        | some thisTld =>
          if thisTld.privateRegistry then (.privateRegistry, [])
          else
            let server1 : Option String := pickServer server0 thisTld
            let slow_down2 : Int := pickSlowDown slow_down1 thisTld
            let tldLevel := pySplit '_' tld
            match (if internationalized then
                     internationalizedDomainNameToPunyCode encodeIdna d2
                   else .ok d2) with
            | .error _ => (.unicodeError, [])
            | .ok d3 =>
              match queryLoop attempt server1 slow_down2 tldLevel d3 with
              | (some pd, calls) => (.domainRecord pd, calls)
              | (none, calls) => (.noResult, calls)

/-- A sample empty registry, for concrete instantiations. -/
def emptyRegistry : List (String × TldInfo) := []

/-- A sample lookup oracle that never finds a record. -/
def attemptNone : List String → Option ParsedRecord := fun _ => none

/-- A sample idna codec that encodes every label to itself. -/
def codecId : String → Except Unit String := fun s => .ok s

example :
    query emptyRegistry attemptNone codecId (.pyStr "nonexistent.faketld") 0 none false =
      (.unknownTld, []) := by rfl
example :
    query [("id_", ⟨false, none, none⟩)] attemptNone codecId (.pyStr "co.id") 0 none false =
      (.noResult, [⟨["co", "id"], none, 0⟩]) := by rfl
example :
    query emptyRegistry attemptNone codecId (.pyStr "www") 0 none false =
      (.indexError, []) := by rfl
example :
    query emptyRegistry attemptNone codecId (.pyStr "localhost") 0 none false =
      (.noResult, []) := by rfl
example :
    query [("com", ⟨false, none, none⟩)] attemptNone codecId (.pyStr "a.b.c.com") 0 none false =
      (.noResult, [⟨["a", "b", "c", "com"], none, 0⟩, ⟨["b", "c", "com"], none, 0⟩,
        ⟨["c", "com"], none, 0⟩]) := by rfl

/-! ### Helper lemmas on the suffix-table scan -/

lemma lookupSuffix_eq_none (domain : String) (tbl : List (String × String))
    (h : ∀ p ∈ tbl, strEndsWith domain p.1 = false) :
    lookupSuffix domain tbl = none := by
  induction tbl with
  | nil => rfl
  | cons p rest ih =>
    simp only [lookupSuffix, h p (List.mem_cons_self p rest),
      Bool.false_eq_true, if_false]
    exact ih fun q hq => h q (List.mem_cons_of_mem p hq)

/-- A domain that textually ends with `global` matches no entry of the
compound-suffix table: every table key is at least 6 characters long and
its last 6 characters differ from `global`. -/
lemma no_compound_of_global (domain : String)
    (hsuf : "global".data <:+ domain.data) :
    lookupSuffix domain Map2Underscore = none := by
  apply lookupSuffix_eq_none
  intro p hp
  fin_cases hp <;>
    (simp only [strEndsWith, decide_eq_false_iff_not]
     intro hk
     exact absurd (List.suffix_of_suffix_length_le hsuf hk (by decide)) (by decide))

/-- Claim C9: the reserved-identifier scan tests suffixes of the whole
normalized domain text, and the `global` entry has no leading dot, so
every domain text ending with the letters `global` (label boundary or
not) classifies to the identifier `global_`; in particular
`example.myglobal` does, instead of its last label `myglobal`. -/
theorem c9_reserved_suffix_global (domain : String) (d : List String)
    (h : strEndsWith domain "global" = true) :
    filterTldToSupportedPattern domain d = .ok ("global_", d) := by
  have hsuf : "global".data <:+ domain.data := by
    simpa [strEndsWith] using h
  have hkw : lookupSuffix domain PythonKeyWordMap = some "global_" := by
    simp [PythonKeyWordMap, lookupSuffix, h]
  by_cases hd : 2 < d.length
  · simp only [filterTldToSupportedPattern, if_pos hd,
      no_compound_of_global domain hsuf, hkw]
  · simp only [filterTldToSupportedPattern, if_neg hd, hkw]

theorem c9_witness :
    strEndsWith "example.myglobal" "global" = true ∧
    filterTldToSupportedPattern "example.myglobal" ["example", "myglobal"] =
      .ok ("global_", ["example", "myglobal"]) ∧
    "global_" ≠ "myglobal" :=
  ⟨by decide,
   c9_reserved_suffix_global "example.myglobal" ["example", "myglobal"] (by decide),
   by decide⟩

/-- Claim C1 (amended): a domain with more than 2 labels whose text ends
with a compound-table suffix classifies via the compound table (the
first matching entry in source order); in particular `a.b.ac.uk` and
`a.b.co.il` give `ac_uk` and `co_il`.  But the table has no `.co.uk`
entry, so `a.b.co.uk` matches nothing there and falls back to `uk`. -/
theorem c1_amended_compound_priority :
    (∀ (domain : String) (d : List String) (t : String), 2 < d.length →
        lookupSuffix domain Map2Underscore = some t →
        filterTldToSupportedPattern domain d = .ok (t, d)) ∧
    filterTldToSupportedPattern "a.b.ac.uk" ["a", "b", "ac", "uk"] =
      .ok ("ac_uk", ["a", "b", "ac", "uk"]) ∧
    filterTldToSupportedPattern "a.b.co.il" ["a", "b", "co", "il"] =
      .ok ("co_il", ["a", "b", "co", "il"]) ∧
    filterTldToSupportedPattern "a.b.co.uk" ["a", "b", "co", "uk"] =
      .ok ("uk", ["a", "b", "co", "uk"]) := by
  refine ⟨?_, by rfl, by rfl, by rfl⟩
  intro domain d t hd hl
  simp only [filterTldToSupportedPattern, if_pos hd, hl]

theorem c1_witness :
    2 < (["a", "b", "co", "il"] : List String).length ∧
    lookupSuffix "a.b.co.il" Map2Underscore = some "co_il" ∧
    filterTldToSupportedPattern "a.b.co.il" ["a", "b", "co", "il"] =
      .ok ("co_il", ["a", "b", "co", "il"]) :=
  ⟨by decide, by rfl,
   c1_amended_compound_priority.1 "a.b.co.il" ["a", "b", "co", "il"] "co_il"
     (by decide) (by rfl)⟩

/-- Claim C1, as stated, is false: `a.b.co.uk` does not classify to
`co_uk` through the compound table (there is no `.co.uk` entry); the
classifier returns the fallback `uk`. -/
theorem c1_counterexample :
    filterTldToSupportedPattern "a.b.co.uk" ["a", "b", "co", "uk"] =
      .ok ("uk", ["a", "b", "co", "uk"]) ∧
    lookupSuffix "a.b.co.uk" Map2Underscore = none ∧
    ("uk" : String) ≠ "co_uk" :=
  ⟨by rfl, by rfl, by decide⟩

/-! ### Error paths of `query` (claims C4, C5) -/

/-- Claim C4: when the classified TLD identifier is absent from the
registry, `query` raises `UnknownTld` and the lookup executor is never
invoked (empty trace). -/
theorem c4_unknown_tld (TLDRE : List (String × TldInfo))
    (attempt : List String → Option ParsedRecord)
    (codec : String → Except Unit String) (sd : Int) (srv : Option String)
    (intl : Bool) (s tld : String) (d2 : List String)
    (hlen : (codeNormalize s).length ≠ 1)
    (hf : filterTldToSupportedPattern (codeNormalizeStr s) (codeNormalize s) =
      .ok (tld, d2))
    (hreg : TLDRE.lookup tld = none) :
    query TLDRE attempt codec (.pyStr s) sd srv intl = (.unknownTld, []) := by
  simp only [query, codeNormalize] at *
  simp only [if_neg hlen, hf, hreg]

theorem c4_witness :
    (codeNormalize "nonexistent.faketld").length ≠ 1 ∧
    filterTldToSupportedPattern (codeNormalizeStr "nonexistent.faketld")
      (codeNormalize "nonexistent.faketld") =
        .ok ("faketld", ["nonexistent", "faketld"]) ∧
    emptyRegistry.lookup "faketld" = none ∧
    query emptyRegistry attemptNone codecId (.pyStr "nonexistent.faketld") 0 none false =
      (.unknownTld, []) :=
  ⟨by decide, by rfl, by rfl,
   c4_unknown_tld emptyRegistry attemptNone codecId 0 none false
     "nonexistent.faketld" "faketld" ["nonexistent", "faketld"]
     (by decide) (by rfl) (by rfl)⟩

/-- Claim C5: when the registry entry of the classified TLD carries the
private-registry flag, `query` raises `WhoisPrivateRegistry` and the
lookup executor is never invoked (empty trace). -/
theorem c5_private_registry (TLDRE : List (String × TldInfo))
    (attempt : List String → Option ParsedRecord)
    (codec : String → Except Unit String) (sd : Int) (srv : Option String)
    (intl : Bool) (s tld : String) (d2 : List String) (info : TldInfo)
    (hlen : (codeNormalize s).length ≠ 1)
    (hf : filterTldToSupportedPattern (codeNormalizeStr s) (codeNormalize s) =
      .ok (tld, d2))
    (hreg : TLDRE.lookup tld = some info)
    (hpriv : info.privateRegistry = true) :
    query TLDRE attempt codec (.pyStr s) sd srv intl = (.privateRegistry, []) := by
  simp only [query, codeNormalize] at *
  simp only [if_neg hlen, hf, hreg, if_pos hpriv]

theorem c5_witness :
    (codeNormalize "sub.example.sm").length ≠ 1 ∧
    filterTldToSupportedPattern (codeNormalizeStr "sub.example.sm")
      (codeNormalize "sub.example.sm") = .ok ("sm", ["sub", "example", "sm"]) ∧
    ([("sm", ⟨true, none, none⟩)] : List (String × TldInfo)).lookup "sm" =
      some ⟨true, none, none⟩ ∧
    query [("sm", ⟨true, none, none⟩)] attemptNone codecId (.pyStr "sub.example.sm")
      0 none false = (.privateRegistry, []) :=
  ⟨by decide, by rfl, by rfl,
   c5_private_registry [("sm", ⟨true, none, none⟩)] attemptNone codecId 0 none false
     "sub.example.sm" "sm" ["sub", "example", "sm"] ⟨true, none, none⟩
     (by decide) (by rfl) (by rfl) (by rfl)⟩

/-- Claim C10: a non-string `domain` argument fails the leading
`isinstance` assertion before any normalization, classification or
lookup (empty trace); for a string argument the assertion never fires. -/
theorem c10_type_assertion (TLDRE : List (String × TldInfo))
    (attempt : List String → Option ParsedRecord)
    (codec : String → Except Unit String) (sd : Int) (srv : Option String)
    (intl : Bool) :
    (∀ v : PyValue, (∀ s : String, v ≠ .pyStr s) →
      query TLDRE attempt codec v sd srv intl = (.assertError, [])) ∧
    (∀ s : String,
      (query TLDRE attempt codec (.pyStr s) sd srv intl).1 ≠ .assertError) := by
  constructor
  · intro v hv
    cases v with
    | pyStr s => exact absurd rfl (hv s)
    | pyInt n => rfl
    | pyNone => rfl
  · intro s
    simp only [query]
    repeat' split
    all_goals simp

theorem c10_witness :
    (∀ s : String, (PyValue.pyNone : PyValue) ≠ .pyStr s) ∧
    query emptyRegistry attemptNone codecId .pyNone 0 none false =
      (.assertError, []) ∧
    (query emptyRegistry attemptNone codecId (.pyStr "google.com") 0 none false).1 ≠
      .assertError :=
  ⟨fun _ h => PyValue.noConfusion h,
   (c10_type_assertion emptyRegistry attemptNone codecId 0 none false).1 .pyNone
     (fun _ h => PyValue.noConfusion h),
   (c10_type_assertion emptyRegistry attemptNone codecId 0 none false).2 "google.com"⟩

/-! ### Single-label inputs (claim C3) -/

lemma toLower_eq_dot {c : Char} (h : c.toLower = '.') : c = '.' := by
  simp only [Char.toLower] at h
  split at h
  · exfalso
    rename_i hc
    have hv : (c.toNat + 32).isValidChar := by
      refine Or.inl ?_
      have := hc.2
      omega
    have hn : (Char.ofNat (c.toNat + 32)).toNat = c.toNat + 32 := by
      rw [Char.ofNat, dif_pos hv]
      rfl
    rw [h] at hn
    have h46 : ('.' : Char).toNat = 46 := by decide
    have := hc.1
    omega
  · exact h

lemma dot_notMem_pyLower {l : List Char} (h : '.' ∉ l) :
    '.' ∉ l.map Char.toLower := by
  intro hm
  rcases List.mem_map.1 hm with ⟨c, hc, hlc⟩
  exact h (toLower_eq_dot hlc ▸ hc)

lemma dot_notMem_codeNormalizeStr (s : String) (h : '.' ∉ s.data) :
    '.' ∉ (codeNormalizeStr s).data := by
  simp only [codeNormalizeStr, pyRstripDots, pyStrip, pyLower]
  intro hm
  rw [List.mem_reverse] at hm
  have h1 := (List.dropWhile_sublist _).subset hm
  rw [List.mem_reverse, List.mem_reverse] at h1
  have h2 := (List.dropWhile_sublist _).subset h1
  rw [List.mem_reverse] at h2
  have h3 := (List.dropWhile_sublist _).subset h2
  exact dot_notMem_pyLower h h3

lemma splitOnChar_eq_single {sep : Char} {l : List Char} (h : sep ∉ l) :
    splitOnChar sep l = [l] := by
  induction l with
  | nil => rfl
  | cons c rest ih =>
    have hc : ¬ c = sep := fun e => h (e ▸ List.mem_cons_self c rest)
    have hr : sep ∉ rest := fun hm => h (List.mem_cons_of_mem c hm)
    rw [splitOnChar, if_neg hc, ih hr]

lemma pySplit_dot_single {s : String} (h : '.' ∉ s.data) :
    pySplit '.' s = [s] := by
  rw [pySplit, splitOnChar_eq_single h]
  rfl

/-- Claim C3: a dotless input other than (a spelling of) `www` makes
`query` return `None` with no executor call; but the input `www` (or any
dotless input normalizing to `www`) reaches the classifier with an empty
label sequence and dies on `d[-1]` with an `IndexError` instead of
returning `None` — the code path the claim describes does not exist for
`www`. -/
theorem c3_single_label_behavior (TLDRE : List (String × TldInfo))
    (attempt : List String → Option ParsedRecord)
    (codec : String → Except Unit String) (sd : Int) (srv : Option String)
    (intl : Bool) (s : String) (h : '.' ∉ s.data) :
    (codeNormalizeStr s ≠ "www" →
      query TLDRE attempt codec (.pyStr s) sd srv intl = (.noResult, [])) ∧
    (codeNormalizeStr s = "www" →
      query TLDRE attempt codec (.pyStr s) sd srv intl = (.indexError, [])) := by
  have hsplit : pySplit '.' (codeNormalizeStr s) = [codeNormalizeStr s] :=
    pySplit_dot_single (dot_notMem_codeNormalizeStr s h)
  constructor
  · intro hw
    simp only [query, hsplit, wwwDrop, if_neg hw]
    simp
  · intro hw
    simp only [query, hsplit, hw]
    rfl

theorem c3_witness :
    ('.' ∉ ("localhost" : String).data) ∧
    codeNormalizeStr "localhost" ≠ "www" ∧
    query emptyRegistry attemptNone codecId (.pyStr "localhost") 0 none false =
      (.noResult, []) ∧
    ('.' ∉ ("www" : String).data) ∧
    codeNormalizeStr "www" = "www" ∧
    query emptyRegistry attemptNone codecId (.pyStr "www") 0 none false =
      (.indexError, []) :=
  ⟨by decide, by decide,
   (c3_single_label_behavior emptyRegistry attemptNone codecId 0 none false
     "localhost" (by decide)).1 (by decide),
   by decide, by rfl,
   (c3_single_label_behavior emptyRegistry attemptNone codecId 0 none false
     "www" (by decide)).2 (by rfl)⟩

/-! ### Normalization pipeline (claim C6) -/

/-- Modelled from the claim: remove one single trailing `'.'`. -/
def removeOneTrailingDot (s : String) : String :=
  if strEndsWith s "." then ⟨s.data.dropLast⟩ else s

/-- The normalization pipeline exactly as claim C6 words it: lowercase,
strip whitespace, remove a single trailing dot, split on `'.'`, drop a
leading `www` label. -/
def claimNormalize (s : String) : List String :=
  wwwDrop (pySplit '.' (removeOneTrailingDot (pyStrip (pyLower s))))

/-- Trailing-dot removal stated independently of `pyRstripDots`: a
character is kept unless it is a dot followed only by removed dots. -/
def removeTrailingDots : List Char → List Char
  | [] => []
  | c :: rest =>
    match removeTrailingDots rest with
    | [] => if c = '.' then [] else [c]
    | r => c :: r

/-- The normalization pipeline with the dot step amended to remove every
trailing dot. -/
def amendedNormalize (s : String) : List String :=
  wwwDrop (pySplit '.' ⟨removeTrailingDots (pyStrip (pyLower s)).data⟩)

lemma removeTrailingDots_eq (l : List Char) :
    removeTrailingDots l = (l.reverse.dropWhile (· == '.')).reverse := by
  induction l with
  | nil => rfl
  | cons c rest ih =>
    rw [removeTrailingDots, List.reverse_cons, List.dropWhile_append]
    rcases hrest : rest.reverse.dropWhile (· == '.') with _ | ⟨a, r⟩
    · rw [ih, hrest]
      by_cases hc : c = '.' <;> simp [hc]
    · rw [ih, hrest]
      simp only [List.isEmpty_cons, Bool.false_eq_true, if_false]
      cases hx : (a :: r).reverse with
      | nil => simp at hx
      | cons b bs =>
        rw [List.reverse_append, hx]
        simp

/-- Claim C6, as stated (a *single* trailing dot is removed), is false:
the source removes every trailing dot, so the two pipelines disagree on
`"a.com.."`. -/
theorem c6_counterexample :
    codeNormalize "a.com.." = ["a", "com"] ∧
    claimNormalize "a.com.." = ["a", "com", ""] ∧
    (["a", "com"] : List String) ≠ ["a", "com", ""] :=
  ⟨by rfl, by rfl, by decide⟩

/-- Claim C6 (amended): the label sequence `query` works on is exactly
the composition lowercase, strip whitespace, remove every trailing dot,
split on `'.'`, drop a leading `www`; each step is a total function. -/
theorem c6_amended_normalization (s : String) :
    codeNormalize s = amendedNormalize s := by
  simp only [codeNormalize, amendedNormalize, codeNormalizeStr, pyRstripDots,
    removeTrailingDots_eq]

theorem c6_witness : codeNormalize "a.com.." = amendedNormalize "a.com.." :=
  c6_amended_normalization "a.com.."

/-! ### Internationalization converter (claim C7) -/

/-- A sample idna codec that fails on every label. -/
def codecFail : String → Except Unit String := fun _ => .error ()

/-- Claim C7, as stated, is false: a label whose encoding raises is not
passed through unchanged — the error propagates out of the conversion
(the source has no handler around `k.encode("idna")`). -/
theorem c7_counterexample :
    internationalizedDomainNameToPunyCode codecFail ["a"] = .error () ∧
    internationalizedDomainNameToPunyCode codecFail ["a"] ≠ .ok ["a"] :=
  ⟨by rfl, fun h => Except.noConfusion h⟩

/-- Claim C7 (amended): when every label encodes successfully, each
label is rewritten independently (an empty encode result falls back to
the original label, so no label is ever dropped); when some label fails
to encode, the whole conversion fails with that error instead of
passing the label through. -/
theorem c7_amended_puny (codec : String → Except Unit String)
    (d : List String) :
    ((∀ k ∈ d, ∃ e, codec k = .ok e) →
      internationalizedDomainNameToPunyCode codec d =
        .ok (d.map fun k =>
          match codec k with
          | .ok e => if e != "" then e else k
          | .error _ => k)) ∧
    ((∃ k ∈ d, codec k = .error ()) →
      internationalizedDomainNameToPunyCode codec d = .error ()) := by
  induction d with
  | nil =>
    exact ⟨fun _ => rfl, fun ⟨k, hk, _⟩ => absurd hk (List.not_mem_nil k)⟩
  | cons k rest ih =>
    constructor
    · intro hall
      obtain ⟨e, he⟩ := hall k (List.mem_cons_self k rest)
      rw [internationalizedDomainNameToPunyCode, he,
        ih.1 fun q hq => hall q (List.mem_cons_of_mem k hq)]
      simp [he, Except.map]
    · rintro ⟨q, hq, herr⟩
      rcases List.mem_cons.1 hq with rfl | hq1
      · rw [internationalizedDomainNameToPunyCode, herr]
        rfl
      · rw [internationalizedDomainNameToPunyCode]
        cases hck : codec k with
        | error er => cases er; rfl
        | ok e =>
          rw [ih.2 ⟨q, hq1, herr⟩]
          rfl

theorem c7_witness :
    (∀ k ∈ (["abc"] : List String), ∃ e, codecId k = .ok e) ∧
    internationalizedDomainNameToPunyCode codecId ["abc"] = .ok ["abc"] ∧
    (∃ k ∈ (["a"] : List String), codecFail k = .error ()) ∧
    internationalizedDomainNameToPunyCode codecFail ["a"] = .error () :=
  ⟨fun k _ => ⟨k, rfl⟩,
   by
    have h := (c7_amended_puny codecId ["abc"]).1 (fun k _ => ⟨k, rfl⟩)
    simpa [codecId] using h,
   ⟨"a", List.mem_cons_self "a" [], rfl⟩,
   (c7_amended_puny codecFail ["a"]).2 ⟨"a", List.mem_cons_self "a" [], rfl⟩⟩

/-! ### Query parameter resolution (claim C8) -/

/-- The effective server exactly as claim C8 words it: the caller value
when given, else the metadata override when present, else none. -/
def specEffServerLiteral (caller : Option String) (info : TldInfo) :
    Option String :=
  match caller with
  | some c => some c
  | none => info.server

/-- The effective delay exactly as claim C8 words it: the caller value
when nonzero, else the metadata minimum delay when present, else 0. -/
def specEffSlowLiteral (caller : Int) (info : TldInfo) : Int :=
  if caller ≠ 0 then caller
  else
    match info.slowdown with
    | some v => v
    | none => 0

/-- Amended effective server: the caller value when given, else the
metadata override when present *and nonempty*, else none. -/
def effServer (caller : Option String) (info : TldInfo) : Option String :=
  match caller with
  | some c => some c
  | none =>
    match info.server with
    | some sv => if sv != "" then some sv else none
    | none => none

/-- Amended effective delay: the caller value when nonzero, else the
metadata minimum delay when present *and positive*, else 0. -/
def effSlowDown (caller : Int) (info : TldInfo) : Int :=
  if caller ≠ 0 then caller
  else
    match info.slowdown with
    | some v => if 0 < v then v else 0
    | none => 0

lemma pickServer_eq_effServer (srv : Option String) (info : TldInfo) :
    pickServer srv info = effServer srv info := by
  rcases info with ⟨p, sv, sl⟩
  cases srv <;> cases sv <;> rfl

lemma pickSlowDown_eq_effSlowDown (sd : Int) (info : TldInfo) :
    pickSlowDown (if sd != 0 then sd else SLOW_DOWN) info =
      effSlowDown sd info := by
  rcases info with ⟨p, sv, sl⟩
  cases sl with
  | none => by_cases h : sd = 0 <;> simp [pickSlowDown, effSlowDown, SLOW_DOWN, h]
  | some v =>
    by_cases h : sd = 0
    · by_cases hv : 0 < v
      · simp [pickSlowDown, effSlowDown, SLOW_DOWN, h, hv, hv.ne.symm]
      · simp [pickSlowDown, effSlowDown, SLOW_DOWN, h, hv]
    · simp [pickSlowDown, effSlowDown, SLOW_DOWN, h]

/-- Every executor call in the retry loop carries the server and delay
values the loop was entered with: they are fixed before the loop. -/
lemma queryLoop_calls_params (attempt : List String → Option ParsedRecord)
    (srv : Option String) (sl : Int) (tldLevel : List String)
    (d : List String) :
    ∀ c ∈ (queryLoop attempt srv sl tldLevel d).2,
      c.server = srv ∧ c.slow_down = sl := by
  induction d with
  | nil =>
    intro c hc
    rw [queryLoop] at hc
    split at hc <;> simp at hc <;> simp [hc]
  | cons x rest ih =>
    intro c hc
    rw [queryLoop] at hc
    split at hc
    · simp at hc
      simp [hc]
    · split at hc
      · rcases List.mem_cons.1 hc with rfl | hc1
        · exact ⟨rfl, rfl⟩
        · exact ih c hc1
      · simp at hc
        simp [hc]

/-- Claim C8 (amended): once `query` reaches the retry loop, every
executor invocation uses the same effective server and delay, computed
once from caller arguments and metadata before the loop: the server is
the caller value when given, else the metadata override when present
and nonempty, else none; the delay is the caller value when nonzero,
else the metadata minimum delay when present and positive, else 0. -/
theorem c8_amended_params (TLDRE : List (String × TldInfo))
    (attempt : List String → Option ParsedRecord)
    (codec : String → Except Unit String) (sd : Int) (srv : Option String)
    (intl : Bool) (s tld : String) (d2 : List String) (info : TldInfo)
    (hlen : (codeNormalize s).length ≠ 1)
    (hf : filterTldToSupportedPattern (codeNormalizeStr s) (codeNormalize s) =
      .ok (tld, d2))
    (hreg : TLDRE.lookup tld = some info)
    (hpriv : info.privateRegistry = false) :
    ∀ c ∈ (query TLDRE attempt codec (.pyStr s) sd srv intl).2,
      c.server = effServer srv info ∧ c.slow_down = effSlowDown sd info := by
  intro c hc
  simp only [query, codeNormalize] at hc hlen hf
  simp only [if_neg hlen, hf, hreg, hpriv, Bool.false_eq_true, if_false,
    pickServer_eq_effServer, pickSlowDown_eq_effSlowDown] at hc
  split at hc
  · simp at hc
  · rename_i d3 hd3
    split at hc
    all_goals
      rename_i hq
      simp at hc
      have hall := queryLoop_calls_params attempt (effServer srv info)
        (effSlowDown sd info) (pySplit '_' tld) d3
      rw [hq] at hall
      exact hall c hc

theorem c8_witness :
    ((codeNormalize "a.com").length ≠ 1) ∧
    (query [("com", ⟨false, some "whois.x.y", some 9⟩)] attemptNone codecId
      (.pyStr "a.com") 0 none false).2 = [⟨["a", "com"], some "whois.x.y", 9⟩] ∧
    effServer none ⟨false, some "whois.x.y", some 9⟩ = some "whois.x.y" ∧
    effSlowDown 0 ⟨false, some "whois.x.y", some 9⟩ = 9 ∧
    (∀ c ∈ (query [("com", ⟨false, some "whois.x.y", some 9⟩)] attemptNone codecId
        (.pyStr "a.com") 0 none false).2,
      c.server = effServer none ⟨false, some "whois.x.y", some 9⟩ ∧
      c.slow_down = effSlowDown 0 ⟨false, some "whois.x.y", some 9⟩) :=
  ⟨by decide, by rfl, by rfl, by rfl,
   c8_amended_params [("com", ⟨false, some "whois.x.y", some 9⟩)] attemptNone
     codecId 0 none false "a.com" "com" ["a", "com"]
     ⟨false, some "whois.x.y", some 9⟩ (by decide) (by rfl) (by rfl) (by rfl)⟩

/-- Claim C8, as stated, is false on a registry entry whose server
override is present but empty and whose minimum delay is present but
negative: the code ignores both (Python truthiness / positivity tests),
so the executor is called with no server and delay 0, not with the
"present" metadata values the claim prescribes. -/
theorem c8_counterexample :
    (query [("com", ⟨false, some "", some (-7)⟩)] attemptNone codecId
      (.pyStr "a.com") 0 none false).2 = [⟨["a", "com"], none, 0⟩] ∧
    specEffServerLiteral none ⟨false, some "", some (-7)⟩ = some "" ∧
    specEffSlowLiteral 0 ⟨false, some "", some (-7)⟩ = -7 ∧
    (none : Option String) ≠ some "" ∧
    (0 : Int) ≠ -7 :=
  ⟨by rfl, by rfl, by rfl, by decide, by decide⟩

/-! ### Progressive retry loop (claim C2) -/

/-- Claim C2 (amended): the retry loop always terminates after a finite
trace of attempts; the attempts are exactly the iterated left-most-label
drops `d, d.drop 1, ..., d.drop (m-1)` for some `m ≥ 1` (each retry
drops exactly one label from the front); the number of retries beyond
the first attempt, `m - 1`, is at most `n - (k+1)` for `n` the initial
length and `k` the number of `'_'`-separated components of the TLD
identifier; and every *retry* queries at least `k+1` labels.  (The first
attempt always queries the full initial sequence, even when `n < k+1` —
which is why the claim's "never fewer than `k+1` labels" fails.)  When
`n ≥ k+1` every attempt, the first included, has at least `k+1`
labels. -/
theorem c2_amended_loop_bounds (attempt : List String → Option ParsedRecord)
    (srv : Option String) (sl : Int) (tldLevel d : List String) :
    ∃ m : Nat, 1 ≤ m ∧
      (queryLoop attempt srv sl tldLevel d).2.map LookupCall.dl =
        (List.range m).map (d.drop ·) ∧
      m - 1 ≤ d.length - (tldLevel.length + 1) ∧
      (∀ i : Nat, 1 ≤ i → i < m → tldLevel.length + 1 ≤ d.length - i) ∧
      (tldLevel.length + 1 ≤ d.length →
        ∀ c ∈ (queryLoop attempt srv sl tldLevel d).2,
          tldLevel.length + 1 ≤ c.dl.length) := by
  induction d with
  | nil =>
    refine ⟨1, le_refl 1, ?_, by simp, by omega, ?_⟩
    · rw [queryLoop]
      split <;> simp
    · intro hk
      simp at hk
  | cons x rest ih =>
    rw [queryLoop]
    by_cases hs : pdSuccess (attempt (x :: rest)) = true
    · rw [if_pos hs]
      refine ⟨1, le_refl 1, by rfl, by omega, by omega, ?_⟩
      intro hk c hc
      simp only [List.mem_singleton] at hc
      subst hc
      simpa using hk
    · rw [if_neg hs]
      by_cases hl : tldLevel.length + 1 < (x :: rest).length
      · rw [if_pos hl]
        obtain ⟨m, hm1, hmap, hbound, hmin, hall⟩ := ih
        have hlen : tldLevel.length + 1 ≤ rest.length := by
          simp only [List.length_cons] at hl
          omega
        refine ⟨m + 1, by omega, ?_, ?_, ?_, ?_⟩
        · simp only [List.map_cons]
          rw [hmap, List.range_succ_eq_map, List.map_cons, List.map_map]
          congr 1
        · simp only [List.length_cons]
          omega
        · intro i h1 h2
          simp only [List.length_cons]
          omega
        · intro hk c hc
          simp only [List.mem_cons] at hc
          rcases hc with rfl | hc1
          · simpa using hk
          · exact hall hlen c hc1
      · rw [if_neg hl]
        refine ⟨1, le_refl 1, by rfl, by omega, by omega, ?_⟩
        intro hk c hc
        simp only [List.mem_singleton] at hc
        subst hc
        simpa using hk

theorem c2_witness :
    (queryLoop attemptNone none 0 ["com"] ["a", "b", "c", "com"]).2.map
        LookupCall.dl =
      [["a", "b", "c", "com"], ["b", "c", "com"], ["c", "com"]] ∧
    (∃ m : Nat, 1 ≤ m ∧
      (queryLoop attemptNone none 0 ["com"] ["a", "b", "c", "com"]).2.map
          LookupCall.dl =
        (List.range m).map ((["a", "b", "c", "com"] : List String).drop ·) ∧
      m - 1 ≤ (["a", "b", "c", "com"] : List String).length -
        ((["com"] : List String).length + 1) ∧
      (∀ i : Nat, 1 ≤ i → i < m →
        (["com"] : List String).length + 1 ≤
          (["a", "b", "c", "com"] : List String).length - i) ∧
      ((["com"] : List String).length + 1 ≤
          (["a", "b", "c", "com"] : List String).length →
        ∀ c ∈ (queryLoop attemptNone none 0 ["com"] ["a", "b", "c", "com"]).2,
          (["com"] : List String).length + 1 ≤ c.dl.length)) :=
  ⟨by rfl,
   c2_amended_loop_bounds attemptNone none 0 ["com"] ["a", "b", "c", "com"]⟩

/-- Claim C2, as stated, is false in its "never invokes the lookup with
fewer than `k + 1` labels" part: for `co.id` the identifier is `id_`,
which splits on `'_'` into `k = 2` labels (`["id", ""]`), yet the first
(and only) executor invocation carries the 2-label sequence
`["co", "id"]`, and `2 < k + 1 = 3`. -/
theorem c2_counterexample :
    query [("id_", ⟨false, none, none⟩)] attemptNone codecId (.pyStr "co.id")
      0 none false = (.noResult, [⟨["co", "id"], none, 0⟩]) ∧
    pySplit '_' "id_" = ["id", ""] ∧
    (⟨["co", "id"], none, 0⟩ : LookupCall).dl.length <
      (["id", ""] : List String).length + 1 :=
  ⟨by rfl, by rfl, by decide⟩
